import Mathlib

/-!
Verification of the web-TaskOps backend (`后端/main.py`) against its design
specification.  The development shallowly embeds the two subsystems with real
logic — the recurring-reminder scheduler and the asset/liability ledger
balance engine — as executable Lean definitions translated from the Python
source, and proves (or refutes) the specified properties about them.

Modelling conventions:
* Python `datetime.date` values are modelled by `PyDate` (proleptic Gregorian
  calendar, year/month/day as naturals, unbounded years).  `date(y, m, d)`
  raising `ValueError` is modelled by a `validDate` check.
* Python floats in the ledger are modelled by exact rationals `ℚ` (the spec
  treats floating-point accumulation as out of scope).
* The Python standard library's ISO date/datetime parsers, which are external
  to the repository, appear as explicit function parameters
  `pf pg : String → Option PyDate` of `parse_due_date`; `none` models a
  raised `ValueError`.  Everything else is translated from the source.
-/

/-- A calendar date as Python's `datetime.date` holds it: year, month, day. -/
structure PyDate where
  year : Nat
  month : Nat
  day : Nat
deriving DecidableEq, Repr

/-- Gregorian leap-year rule, as used by Python's `calendar` module. -/
def isLeap (y : Nat) : Bool :=
  y % 4 == 0 && (y % 100 != 0 || y % 400 == 0)

/-- Length of a month; `calendar.monthrange(y, m)[1]` in the source. -/
def daysInMonth (y m : Nat) : Nat :=
  if m = 2 then (if isLeap y then 29 else 28)
  else if m = 4 ∨ m = 6 ∨ m = 9 ∨ m = 11 then 30
  else 31

/-- Whether `date(year, month, day)` would construct without raising. -/
def validDate (d : PyDate) : Bool :=
  decide (1 ≤ d.month) && decide (d.month ≤ 12) && decide (1 ≤ d.day) &&
    decide (d.day ≤ daysInMonth d.year d.month)

/-- The day after `d`; models `d + timedelta(days=1)`. -/
def succDate (d : PyDate) : PyDate :=
  if d.day < daysInMonth d.year d.month then ⟨d.year, d.month, d.day + 1⟩
  else if d.month = 12 then ⟨d.year + 1, 1, 1⟩
  else ⟨d.year, d.month + 1, 1⟩

/-- The day before `d`; models `d - timedelta(days=1)`. -/
def predDate (d : PyDate) : PyDate :=
  if 1 < d.day then ⟨d.year, d.month, d.day - 1⟩
  else if d.month = 1 then ⟨d.year - 1, 12, 31⟩
  else ⟨d.year, d.month - 1, daysInMonth d.year (d.month - 1)⟩

/-- `d + timedelta(days=n)` for a nonnegative day count. -/
def addDays : PyDate → Nat → PyDate
  | d, 0 => d
  | d, n + 1 => addDays (succDate d) n

/-- `d - timedelta(days=n)` for a nonnegative day count. -/
def subDaysN : PyDate → Nat → PyDate
  | d, 0 => d
  | d, n + 1 => subDaysN (predDate d) n

/-- `d + timedelta(days=k)` for a possibly negative day count. -/
def addDaysInt (d : PyDate) (k : Int) : PyDate :=
  if 0 ≤ k then addDays d k.toNat else subDaysN d (-k).toNat

/-- Chronological (lexicographic year/month/day) strict order on dates. -/
def dateLt (a b : PyDate) : Prop :=
  a.year < b.year ∨
    (a.year = b.year ∧ (a.month < b.month ∨ (a.month = b.month ∧ a.day < b.day)))

instance (a b : PyDate) : Decidable (dateLt a b) := by
  unfold dateLt
  infer_instance

/-- Python's `x or dflt` on an optional integer: `None` and `0` are falsy. -/
def pyOrInt (v : Option Int) (dflt : Int) : Int :=
  match v with
  | none => dflt
  | some k => if k = 0 then dflt else k

/-- The reminder record, mirroring the `Reminder` SQLModel table. -/
structure Reminder where
  service : String
  content : String
  type : String := "once"
  processed : Bool := false
  due_time : Option PyDate := none
  remind_time : Option PyDate := none
  advance_days : Option Int := some 30
  recurring : Bool := false
  cycle_mode : Option String := none
  cycle_days : Option Int := none
  last_completed_date : Option PyDate := none
  created_at : PyDate
deriving DecidableEq, Repr

/-- Year and month one month after `base`, as computed inline in the
`monthly`/`month_start` branch of `calc_next_due`. -/
def nextMonth (base : PyDate) : Nat × Nat :=
  if base.month = 12 then (base.year + 1, 1) else (base.year, base.month + 1)

/-- Translation of `calc_next_due(reminder, base_date)`: the pure date-cycle
calculator.  The `try date(...) except ValueError` pattern of the source is
rendered as a `validDate` test. -/
def calc_next_due (reminder : Reminder) (base_date : PyDate) : PyDate :=
  let mode0 := reminder.cycle_mode
  let mode :=
    if reminder.type = "daily" ∧ (mode0 = none ∨ mode0 = some "") then some "daily"
    else mode0
  if mode = some "daily" then
    addDays base_date 1
  else if mode = some "weekly" then
    addDays base_date 7
  else if mode = some "monthly" ∨ mode = some "month_start" then
    let y := (nextMonth base_date).1
    let m := (nextMonth base_date).2
    if validDate ⟨y, m, base_date.day⟩ then ⟨y, m, base_date.day⟩
    else ⟨y, m, daysInMonth y m⟩
  else if mode = some "yearly" then
    if validDate ⟨base_date.year + 1, base_date.month, base_date.day⟩ then
      ⟨base_date.year + 1, base_date.month, base_date.day⟩
    else ⟨base_date.year + 1, 2, 28⟩
  else if mode = some "days" then
    addDaysInt base_date (pyOrInt reminder.cycle_days 1)
  else
    addDays base_date 1

/-- Translation of `mark_processed` (route `PUT /reminders/{rid}/processed`)
for a found reminder; `today` is `datetime.now(tz).date()`. -/
def mark_processed (today : PyDate) (r0 : Reminder) : Reminder :=
  let r := { r0 with last_completed_date := some today }
  if r.recurring then
    let base_due := r.due_time.getD today
    let next_due :=
      if r.cycle_mode = some "daily" then addDays today 1
      else calc_next_due r base_due
    let adv := pyOrInt r.advance_days 0
    { r with
      due_time := some next_due,
      remind_time := some (addDaysInt next_due (-adv)),
      processed := false }
  else
    { r with processed := true }

/-- Python's `str.strip()` on the underlying character list. -/
def pyStrip (s : String) : String :=
  ⟨((s.data.dropWhile Char.isWhitespace).reverse.dropWhile Char.isWhitespace).reverse⟩

/-- Python's `str.endswith(suffix)`. -/
def pyEndsWith (s suffix : String) : Bool :=
  suffix.data.reverse.isPrefixOf s.data.reverse

/-- Replace every occurrence of the character `c` by the string `rep`. -/
def replaceChar (c : Char) (rep : List Char) : List Char → List Char
  | [] => []
  | x :: xs => if x = c then rep ++ replaceChar c rep xs else x :: replaceChar c rep xs

/-- Python's `raw.replace("Z", "+00:00")` as used by `parse_due_date`. -/
def pyReplaceZ (s : String) : String :=
  ⟨replaceChar 'Z' ['+', '0', '0', ':', '0', '0'] s.data⟩

/-- Translation of `parse_due_date(raw)`.  The standard-library parsers
`date.fromisoformat` (10-character branch) and the
`datetime.fromisoformat` + timezone-to-local-calendar-day path are external
library code, passed in as `pf` and `pg`; `none` models a raised
`ValueError`.  Python's `strip`/`endswith`/`replace` string helpers are
modelled structurally above. -/
def parse_due_date (pf pg : String → Option PyDate) (raw : String) : Option PyDate :=
  if raw = "" then none
  else
    let r1 := pyStrip raw
    let r2 := if pyEndsWith r1 "Z" then pyReplaceZ r1 else r1
    if r2.length = 10 then pf r2 else pg r2

/-- The `due_time` value of a reminder-creation payload: either already a
calendar date (the `isinstance(data.due_time, date)` branch) or a raw
string still to be parsed. -/
inductive DueInput
  | asDate (d : PyDate)
  | asStr (s : String)
deriving DecidableEq, Repr

/-- Python truthiness of the optional `due_time` creation value: `None` and
the empty string are falsy. -/
def dueTruthy : Option DueInput → Bool
  | none => false
  | some (DueInput.asStr s) => !(s == "")
  | some (DueInput.asDate _) => true

/-- The request body of `POST /reminders` before the handler runs: the
mutable fields a client can supply. -/
structure ReminderDraft where
  service : String
  content : String
  type : String := "once"
  processed : Bool := false
  due_time : Option DueInput := none
  advance_days : Option Int := some 30
  recurring : Bool := false
  cycle_mode : Option String := none
  cycle_days : Option Int := none
  last_completed_date : Option PyDate := none
deriving DecidableEq, Repr

/-- Translation of `create_reminder` (route `POST /reminders`). -/
def create_reminder (pf pg : String → Option PyDate) (today : PyDate)
    (data : ReminderDraft) : Reminder :=
  let due0 : Option DueInput :=
    if dueTruthy data.due_time then data.due_time else some (DueInput.asDate today)
  let cmode : Option String :=
    if data.recurring = true ∧ (data.cycle_mode = none ∨ data.cycle_mode = some "") then
      some "daily"
    else data.cycle_mode
  let adv : Int := pyOrInt data.advance_days 0
  let dr : PyDate × PyDate :=
    match due0 with
    | some (DueInput.asDate d) => (d, addDaysInt d (-adv))
    | some (DueInput.asStr s) =>
        match parse_due_date pf pg s with
        | some d => (d, addDaysInt d (-adv))
        | none => (today, today)
    | none => (today, today)
  { service := data.service, content := data.content, type := data.type,
    processed := data.processed, due_time := some dr.1, remind_time := some dr.2,
    advance_days := data.advance_days, recurring := data.recurring,
    cycle_mode := cmode, cycle_days := data.cycle_days,
    last_completed_date := data.last_completed_date, created_at := today }

/-- A dynamic JSON scalar, as found in the untyped `payload: dict` of the
sparse-patch routes. -/
inductive PVal
  | pnull
  | pstr (s : String)
  | pint (n : Int)
  | pbool (b : Bool)
deriving DecidableEq, Repr

/-- Python truthiness of a JSON scalar. -/
def pyTruthy : PVal → Bool
  | PVal.pnull => false
  | PVal.pstr s => !(s == "")
  | PVal.pint n => !(n == 0)
  | PVal.pbool b => b

/-- Python's `str()` on a JSON scalar, as applied by
`parse_due_date(str(payload['due_time']))`. -/
def pvalStr : PVal → String
  | PVal.pnull => "None"
  | PVal.pstr s => s
  | PVal.pint n => toString n
  | PVal.pbool b => if b then "True" else "False"

/-- The sparse patch of `PUT /reminders/{rid}`.  The handler reads only the
seven keys below; any other key is kept solely by name in `otherKeys`, since
its value is never consulted.  A present key carries the decoded value
(which may itself be `null` for the nullable columns). -/
structure RPatch where
  service : Option String := none
  content : Option String := none
  advance_days : Option (Option Int) := none
  recurring : Option Bool := none
  cycle_mode : Option (Option String) := none
  cycle_days : Option (Option Int) := none
  due_time : Option PVal := none
  otherKeys : List String := []
deriving DecidableEq, Repr

/-- The first loop of `update_reminder`: copy each of the six plain fields
out of the payload when its key is present. -/
def applyPatchBase (r0 : Reminder) (p : RPatch) : Reminder :=
  { r0 with
    service := p.service.getD r0.service,
    content := p.content.getD r0.content,
    advance_days := p.advance_days.getD r0.advance_days,
    recurring := p.recurring.getD r0.recurring,
    cycle_mode := p.cycle_mode.getD r0.cycle_mode,
    cycle_days := p.cycle_days.getD r0.cycle_days }

/-- The closing step of `update_reminder`: whenever `due_time` is set
(a date object is always truthy), recompute
`remind_time = due_time - timedelta(days=advance_days or 0)`. -/
def recomputeRemind (r : Reminder) : Reminder :=
  match r.due_time with
  | some d => { r with remind_time := some (addDaysInt d (-(pyOrInt r.advance_days 0))) }
  | none => r

/-- Translation of `update_reminder` (route `PUT /reminders/{rid}`) for a
found reminder.  `Except.error` models `HTTPException(400, ...)`. -/
def update_reminder (pf pg : String → Option PyDate) (r0 : Reminder) (p : RPatch) :
    Except String Reminder :=
  let r1 := applyPatchBase r0 p
  match p.due_time with
  | some v =>
      if pyTruthy v then
        match parse_due_date pf pg (pvalStr v) with
        | some d => Except.ok (recomputeRemind { r1 with due_time := some d })
        | none => Except.error "Invalid due_time format"
      else Except.ok (recomputeRemind r1)
  | none => Except.ok (recomputeRemind r1)

/-- The per-record normalization pass of `get_reminders` (route
`GET /reminders`): migrate legacy `type='daily'` records and backfill a
missing `due_time` on recurring reminders. -/
def migrate_reminder (today : PyDate) (r0 : Reminder) : Reminder :=
  let r1 :=
    if r0.type = "daily" then
      let a := { r0 with type := "once", recurring := true, cycle_mode := some "daily" }
      let b := if a.due_time = none then { a with due_time := some today } else a
      if b.remind_time = none then { b with remind_time := some today } else b
    else r0
  if r1.recurring = true ∧ r1.due_time = none then { r1 with due_time := some today } else r1

/-- A ledger row's mutable content, mirroring the `Ledger` SQLModel table
(amounts as exact rationals). -/
structure LedgerEntry where
  item : String
  amount : ℚ
  interest : ℚ := 0
  record_type : String := "expense"
  record_date : PyDate
  category : Option String := none
  notes : Option String := none
deriving DecidableEq, Repr

/-- `float(e.interest) if e.interest else 0.0` — the truthiness test of the
source's `debt_out` branches. -/
def interestVal (e : LedgerEntry) : ℚ :=
  if e.interest = 0 then 0 else e.interest

/-- Signed delta this entry contributes to `Asset.amount`, read off the
four `record_type` branches that every ledger handler repeats. -/
def effectAsset (e : LedgerEntry) : ℚ :=
  if e.record_type = "income" then e.amount
  else if e.record_type = "expense" then -e.amount
  else if e.record_type = "debt_in" then e.amount
  else if e.record_type = "debt_out" then -(e.amount + interestVal e)
  else 0

/-- Signed delta this entry contributes to `Liability.amount`. -/
def effectLiability (e : LedgerEntry) : ℚ :=
  if e.record_type = "debt_in" then e.amount
  else if e.record_type = "debt_out" then -e.amount
  else 0

/-- The ledger store: the rows with their primary keys, the two singleton
aggregates, and the next key the store will assign. -/
structure LedgerState where
  entries : List (Nat × LedgerEntry)
  asset : ℚ
  liability : ℚ
  nextId : Nat
deriving DecidableEq, Repr

/-- Fresh store: no rows, both aggregates lazily materialized at `0.0`. -/
def initLedgerState : LedgerState := ⟨[], 0, 0, 0⟩

/-- `session.get(Ledger, id)`. -/
def findEntry (id : Nat) : List (Nat × LedgerEntry) → Option LedgerEntry
  | [] => none
  | p :: rest => if p.1 = id then some p.2 else findEntry id rest

/-- Overwriting the row with key `id` (the field-by-field assignment of
`update_ledger`). -/
def replaceEntry (id : Nat) (e : LedgerEntry) :
    List (Nat × LedgerEntry) → List (Nat × LedgerEntry)
  | [] => []
  | p :: rest =>
      if p.1 = id then (id, e) :: replaceEntry id e rest
      else p :: replaceEntry id e rest

/-- `session.delete` of the row with key `id`. -/
def removeEntry (id : Nat) : List (Nat × LedgerEntry) → List (Nat × LedgerEntry)
  | [] => []
  | p :: rest =>
      if p.1 = id then removeEntry id rest else p :: removeEntry id rest

/-- Translation of `create_ledger` (route `POST /ledger`): insert the row and
apply the effect table forward. -/
def create_ledger (s : LedgerState) (e : LedgerEntry) : LedgerState :=
  { entries := s.entries ++ [(s.nextId, e)],
    asset := s.asset + effectAsset e,
    liability := s.liability + effectLiability e,
    nextId := s.nextId + 1 }

/-- Translation of `update_ledger` (route `PUT /ledger/{id}`): reverse the
stored entry's effect, replace every mutable field, apply the new effect.
A missing id raises 404 and leaves the store untouched. -/
def update_ledger (s : LedgerState) (id : Nat) (e : LedgerEntry) : LedgerState :=
  match findEntry id s.entries with
  | none => s
  | some old =>
      { entries := replaceEntry id e s.entries,
        asset := s.asset - effectAsset old + effectAsset e,
        liability := s.liability - effectLiability old + effectLiability e,
        nextId := s.nextId }

/-- Translation of `delete_ledger` (route `DELETE /ledger/{id}`): reverse the
stored entry's effect and drop the row. -/
def delete_ledger (s : LedgerState) (id : Nat) : LedgerState :=
  match findEntry id s.entries with
  | none => s
  | some old =>
      { entries := removeEntry id s.entries,
        asset := s.asset - effectAsset old,
        liability := s.liability - effectLiability old,
        nextId := s.nextId }

/-- One inbound ledger mutation. -/
inductive LedgerOp
  | create (e : LedgerEntry)
  | update (id : Nat) (e : LedgerEntry)
  | delete (id : Nat)
deriving DecidableEq, Repr

/-- Dispatch one request to its handler. -/
def applyOp (s : LedgerState) : LedgerOp → LedgerState
  | LedgerOp.create e => create_ledger s e
  | LedgerOp.update id e => update_ledger s id e
  | LedgerOp.delete id => delete_ledger s id

/-- Replay a request sequence from the fresh store. -/
def runOps (ops : List LedgerOp) : LedgerState :=
  ops.foldl applyOp initLedgerState

/-- The primary keys currently stored. -/
def entryKeys (l : List (Nat × LedgerEntry)) : List Nat := l.map Prod.fst

/-- Sum of a per-entry delta over the stored rows. -/
def fSum (f : LedgerEntry → ℚ) (l : List (Nat × LedgerEntry)) : ℚ :=
  (l.map fun p => f p.2).sum

/-- Store well-formedness: keys are distinct and below the allocator. -/
def LedgerWF (s : LedgerState) : Prop :=
  (entryKeys s.entries).Nodup ∧ ∀ k ∈ entryKeys s.entries, k < s.nextId

/-- The spec's round-trip example: an expense entry of amount 50. -/
def entryExpense50 : LedgerEntry :=
  { item := "lunch", amount := 50, record_type := "expense", record_date := ⟨2024, 1, 1⟩ }

/-- The borrow entry of the spec's ledger-edit example. -/
def entryDebtIn100 : LedgerEntry :=
  { item := "loan", amount := 100, record_type := "debt_in", record_date := ⟨2024, 1, 1⟩ }

/-- The repayment the spec's ledger-edit example turns the borrow into. -/
def entryDebtOut30i5 : LedgerEntry :=
  { item := "repay", amount := 30, interest := 5, record_type := "debt_out",
    record_date := ⟨2024, 1, 2⟩ }

/-- The spec's catch-up example: a recurring weekly reminder due 2024-01-01. -/
def rWeekly : Reminder :=
  { service := "backup", content := "weekly check", due_time := some ⟨2024, 1, 1⟩,
    remind_time := some ⟨2024, 1, 1⟩, advance_days := some 0, recurring := true,
    cycle_mode := some "weekly", created_at := ⟨2023, 12, 1⟩ }

/-- A custom-interval reminder with a negative `cycle_days`. -/
def rDaysNeg : Reminder :=
  { service := "s", content := "c", cycle_mode := some "days",
    cycle_days := some (-1), created_at := ⟨2024, 1, 1⟩ }

/-- A custom-interval reminder advancing five days at a time. -/
def rDays5 : Reminder :=
  { service := "s", content := "c", cycle_mode := some "days",
    cycle_days := some 5, created_at := ⟨2024, 1, 1⟩ }

/-- A `"days"`-mode reminder with `cycle_days` unset. -/
def rDaysNone : Reminder :=
  { service := "s", content := "c", cycle_mode := some "days",
    cycle_days := none, created_at := ⟨2024, 1, 1⟩ }

/-- A `"days"`-mode reminder with negative `cycle_days`, a valid input pair
the spec's strictly-after property overlooks. -/
def rDaysNegC5 : Reminder :=
  { service := "s", content := "c", cycle_mode := some "days",
    cycle_days := some (-3), created_at := ⟨2024, 1, 1⟩ }

/-- A monthly reminder used for the spec's leap-year clamp example. -/
def rMonthlyC5 : Reminder :=
  { service := "s", content := "c", cycle_mode := some "monthly",
    created_at := ⟨2024, 1, 1⟩ }

/-- The reminder-time invariant of the spec: whenever `due_time` is set,
`remind_time = due_time - (advance_days or 0)` days. -/
def remindInv (r : Reminder) : Prop :=
  ∀ d : PyDate, r.due_time = some d →
    r.remind_time = some (addDaysInt d (-(pyOrInt r.advance_days 0)))

/-- A stored reminder with `processed = true` used to exercise the
processed-preserving update. -/
def rW9 : Reminder :=
  { service := "a", content := "b", processed := true, created_at := ⟨2024, 1, 1⟩ }

/-- A stored reminder with a set `due_time`, patched below with falsy
`due_time` values. -/
def rW10 : Reminder :=
  { service := "a", content := "b", due_time := some ⟨2024, 2, 1⟩,
    remind_time := some ⟨2024, 1, 2⟩, created_at := ⟨2024, 1, 1⟩ }

/-- A stored reminder (no `due_time`) used for the update-side parse tests. -/
def rC7 : Reminder :=
  { service := "a", content := "b", created_at := ⟨2024, 1, 1⟩ }

/-- The creation payload with an unparseable `due_time` string and a 30-day
advance window. -/
def draftC7 : ReminderDraft :=
  { service := "a", content := "b", due_time := some (DueInput.asStr "garbage"),
    advance_days := some 30 }

/-- The creation payload of the C8 counterexample: unparseable `due_time`
with a 30-day advance window. -/
def draftC8 : ReminderDraft :=
  { service := "a", content := "b", due_time := some (DueInput.asStr "zzz"),
    advance_days := some 30 }

/-- A recurring weekly reminder used to witness the amended C8. -/
def rWeeklyC8 : Reminder :=
  { service := "pay", content := "rent", due_time := some ⟨2024, 1, 1⟩,
    remind_time := some ⟨2024, 1, 1⟩, advance_days := some 0, recurring := true,
    cycle_mode := some "weekly", created_at := ⟨2023, 12, 1⟩ }

lemma dateLt_trans {a b c : PyDate} (h1 : dateLt a b) (h2 : dateLt b c) : dateLt a c := by
  unfold dateLt at *
  omega

lemma dateLt_succDate (d : PyDate) : dateLt d (succDate d) := by
  unfold succDate dateLt
  split_ifs <;> simp

lemma dateLt_addDays (d : PyDate) (n : Nat) : dateLt d (addDays d (n + 1)) := by
  induction n generalizing d with
  | zero => exact dateLt_succDate d
  | succ m ih => exact dateLt_trans (dateLt_succDate d) (ih (succDate d))

lemma entryKeys_nil : entryKeys [] = [] := rfl

lemma entryKeys_cons (p : Nat × LedgerEntry) (l : List (Nat × LedgerEntry)) :
    entryKeys (p :: l) = p.1 :: entryKeys l := rfl

lemma entryKeys_append (l1 l2 : List (Nat × LedgerEntry)) :
    entryKeys (l1 ++ l2) = entryKeys l1 ++ entryKeys l2 := by
  simp [entryKeys]

lemma fSum_nil (f : LedgerEntry → ℚ) : fSum f [] = 0 := rfl

lemma fSum_cons (f : LedgerEntry → ℚ) (p : Nat × LedgerEntry)
    (l : List (Nat × LedgerEntry)) : fSum f (p :: l) = f p.2 + fSum f l := by
  simp [fSum]

lemma fSum_append (f : LedgerEntry → ℚ) (l1 l2 : List (Nat × LedgerEntry)) :
    fSum f (l1 ++ l2) = fSum f l1 + fSum f l2 := by
  simp [fSum]

lemma findEntry_mem {id : Nat} {l : List (Nat × LedgerEntry)} {e : LedgerEntry}
    (h : findEntry id l = some e) : id ∈ entryKeys l := by
  induction l with
  | nil => simp [findEntry] at h
  | cons p rest ih =>
      rw [entryKeys_cons]
      unfold findEntry at h
      split at h
      · rename_i heq
        exact List.mem_cons.mpr (Or.inl heq.symm)
      · exact List.mem_cons_of_mem _ (ih h)

lemma findEntry_append_self {id : Nat} {l : List (Nat × LedgerEntry)}
    (e : LedgerEntry) (h : id ∉ entryKeys l) :
    findEntry id (l ++ [(id, e)]) = some e := by
  induction l with
  | nil => simp [findEntry]
  | cons p rest ih =>
      rw [entryKeys_cons, List.mem_cons, not_or] at h
      simp only [List.cons_append]
      unfold findEntry
      rw [if_neg (by exact fun hc => h.1 hc.symm)]
      exact ih h.2

lemma replaceEntry_of_not_mem {id : Nat} (e : LedgerEntry)
    {l : List (Nat × LedgerEntry)} (h : id ∉ entryKeys l) :
    replaceEntry id e l = l := by
  induction l with
  | nil => rfl
  | cons p rest ih =>
      rw [entryKeys_cons, List.mem_cons, not_or] at h
      unfold replaceEntry
      rw [if_neg (by exact fun hc => h.1 (hc ▸ rfl))]
      rw [ih h.2]

lemma removeEntry_of_not_mem {id : Nat} {l : List (Nat × LedgerEntry)}
    (h : id ∉ entryKeys l) : removeEntry id l = l := by
  induction l with
  | nil => rfl
  | cons p rest ih =>
      rw [entryKeys_cons, List.mem_cons, not_or] at h
      unfold removeEntry
      rw [if_neg (by exact fun hc => h.1 (hc ▸ rfl))]
      rw [ih h.2]

lemma entryKeys_replaceEntry (id : Nat) (e : LedgerEntry)
    (l : List (Nat × LedgerEntry)) :
    entryKeys (replaceEntry id e l) = entryKeys l := by
  induction l with
  | nil => rfl
  | cons p rest ih =>
      unfold replaceEntry
      split
      · rw [entryKeys_cons, entryKeys_cons, ih]
        simp_all
      · rw [entryKeys_cons, entryKeys_cons, ih]

lemma mem_entryKeys_removeEntry {k id : Nat} {l : List (Nat × LedgerEntry)}
    (h : k ∈ entryKeys (removeEntry id l)) : k ∈ entryKeys l := by
  induction l with
  | nil => exact h
  | cons p rest ih =>
      rw [entryKeys_cons]
      unfold removeEntry at h
      split at h
      · exact List.mem_cons_of_mem _ (ih h)
      · rw [entryKeys_cons] at h
        rcases List.mem_cons.mp h with h1 | h2
        · exact List.mem_cons.mpr (Or.inl h1)
        · exact List.mem_cons_of_mem _ (ih h2)

lemma nodup_entryKeys_removeEntry {id : Nat} {l : List (Nat × LedgerEntry)}
    (h : (entryKeys l).Nodup) : (entryKeys (removeEntry id l)).Nodup := by
  induction l with
  | nil => exact h
  | cons p rest ih =>
      rw [entryKeys_cons, List.nodup_cons] at h
      unfold removeEntry
      split
      · exact ih h.2
      · rw [entryKeys_cons, List.nodup_cons]
        exact ⟨fun hc => h.1 (mem_entryKeys_removeEntry hc), ih h.2⟩

lemma fSum_replaceEntry (f : LedgerEntry → ℚ) {id : Nat} (e : LedgerEntry)
    {l : List (Nat × LedgerEntry)} {old : LedgerEntry}
    (hnd : (entryKeys l).Nodup) (hfind : findEntry id l = some old) :
    fSum f (replaceEntry id e l) = fSum f l - f old + f e := by
  induction l with
  | nil => simp [findEntry] at hfind
  | cons p rest ih =>
      rw [entryKeys_cons, List.nodup_cons] at hnd
      unfold findEntry at hfind
      unfold replaceEntry
      split at hfind
      · rename_i heq
        rw [if_pos heq]
        obtain rfl : p.2 = old := Option.some.inj hfind
        rw [heq] at hnd
        rw [replaceEntry_of_not_mem e hnd.1]
        rw [fSum_cons, fSum_cons]
        ring
      · rename_i hne
        rw [if_neg hne]
        rw [fSum_cons, fSum_cons, ih hnd.2 hfind]
        ring

lemma fSum_removeEntry (f : LedgerEntry → ℚ) {id : Nat}
    {l : List (Nat × LedgerEntry)} {old : LedgerEntry}
    (hnd : (entryKeys l).Nodup) (hfind : findEntry id l = some old) :
    fSum f (removeEntry id l) = fSum f l - f old := by
  induction l with
  | nil => simp [findEntry] at hfind
  | cons p rest ih =>
      rw [entryKeys_cons, List.nodup_cons] at hnd
      unfold findEntry at hfind
      unfold removeEntry
      split at hfind
      · rename_i heq
        rw [if_pos heq]
        obtain rfl : p.2 = old := Option.some.inj hfind
        rw [heq] at hnd
        rw [removeEntry_of_not_mem hnd.1]
        rw [fSum_cons]
        ring
      · rename_i hne
        rw [if_neg hne]
        rw [fSum_cons, fSum_cons, ih hnd.2 hfind]
        ring

lemma LedgerWF_applyOp {s : LedgerState} (hwf : LedgerWF s) (op : LedgerOp) :
    LedgerWF (applyOp s op) := by
  obtain ⟨hnd, hbnd⟩ := hwf
  cases op with
  | create e =>
      constructor
      · rw [applyOp, create_ledger, entryKeys_append]
        rw [List.nodup_append]
        refine ⟨hnd, List.nodup_singleton _, ?_⟩
        intro a ha hb
        rw [entryKeys] at hb
        simp at hb
        subst hb
        exact absurd (hbnd _ ha) (lt_irrefl _)
      · intro k hk
        rw [applyOp, create_ledger] at hk ⊢
        show k < s.nextId + 1
        rw [entryKeys_append] at hk
        rcases List.mem_append.mp hk with h1 | h2
        · exact Nat.lt_succ_of_lt (hbnd _ h1)
        · rw [entryKeys] at h2
          simp at h2
          omega
  | update id e =>
      rw [applyOp, update_ledger]
      cases hf : findEntry id s.entries with
      | none => exact ⟨hnd, hbnd⟩
      | some old =>
          constructor
          · rw [entryKeys_replaceEntry]
            exact hnd
          · intro k hk
            rw [entryKeys_replaceEntry] at hk
            exact hbnd _ hk
  | delete id =>
      rw [applyOp, delete_ledger]
      cases hf : findEntry id s.entries with
      | none => exact ⟨hnd, hbnd⟩
      | some old =>
          constructor
          · exact nodup_entryKeys_removeEntry hnd
          · intro k hk
            exact hbnd _ (mem_entryKeys_removeEntry hk)

lemma balance_applyOp {s : LedgerState} (hwf : LedgerWF s)
    (ha : s.asset = fSum effectAsset s.entries)
    (hl : s.liability = fSum effectLiability s.entries) (op : LedgerOp) :
    (applyOp s op).asset = fSum effectAsset (applyOp s op).entries ∧
      (applyOp s op).liability = fSum effectLiability (applyOp s op).entries := by
  obtain ⟨hnd, _⟩ := hwf
  cases op with
  | create e =>
      rw [applyOp, create_ledger]
      constructor
      · rw [fSum_append, fSum_cons, fSum_nil, ha]
        ring
      · rw [fSum_append, fSum_cons, fSum_nil, hl]
        ring
  | update id e =>
      rw [applyOp, update_ledger]
      cases hf : findEntry id s.entries with
      | none => exact ⟨ha, hl⟩
      | some old =>
          constructor
          · rw [fSum_replaceEntry effectAsset e hnd hf, ha]
          · rw [fSum_replaceEntry effectLiability e hnd hf, hl]
  | delete id =>
      rw [applyOp, delete_ledger]
      cases hf : findEntry id s.entries with
      | none => exact ⟨ha, hl⟩
      | some old =>
          constructor
          · rw [fSum_removeEntry effectAsset hnd hf, ha]
          · rw [fSum_removeEntry effectLiability hnd hf, hl]

lemma ledger_foldl_invariant (ops : List LedgerOp) :
    ∀ s : LedgerState, LedgerWF s →
      s.asset = fSum effectAsset s.entries →
      s.liability = fSum effectLiability s.entries →
      LedgerWF (ops.foldl applyOp s) ∧
        (ops.foldl applyOp s).asset = fSum effectAsset (ops.foldl applyOp s).entries ∧
        (ops.foldl applyOp s).liability =
          fSum effectLiability (ops.foldl applyOp s).entries := by
  induction ops with
  | nil => exact fun s hwf ha hl => ⟨hwf, ha, hl⟩
  | cons op rest ih =>
      intro s hwf ha hl
      rw [List.foldl_cons]
      have hb := balance_applyOp hwf ha hl op
      exact ih (applyOp s op) (LedgerWF_applyOp hwf op) hb.1 hb.2

/-- Claim C1: replaying any sequence of ledger create/update/delete requests
from the fresh store (aggregates at zero) leaves `Asset.amount` and
`Liability.amount` equal to the sums of the effect-table deltas of the
currently stored rows, computed from each row's current
record_type/amount/interest. -/
theorem ledger_replay_balance_invariant (ops : List LedgerOp) :
    (runOps ops).asset = fSum effectAsset (runOps ops).entries ∧
      (runOps ops).liability = fSum effectLiability (runOps ops).entries := by
  have h := ledger_foldl_invariant ops initLedgerState
    ⟨List.nodup_nil, by intro k hk; cases hk⟩ rfl rfl
  exact ⟨h.2.1, h.2.2⟩

lemma interestVal_eq (e : LedgerEntry) : interestVal e = e.interest := by
  unfold interestVal
  split
  · rename_i h
    exact h.symm
  · rfl

/-- Claim C6: for every entry and every prior store state, create applies the
effect table (income: Asset+amt; expense: Asset−amt; debt_in: Asset+amt and
Liability+amt; debt_out: Asset−(amt+interest) and Liability−amt), and
deleting that same entry restores both aggregates exactly. -/
theorem ledger_create_delete_roundtrip (s : LedgerState) (e : LedgerEntry)
    (hfresh : s.nextId ∉ entryKeys s.entries) :
    (e.record_type = "income" → effectAsset e = e.amount ∧ effectLiability e = 0) ∧
    (e.record_type = "expense" → effectAsset e = -e.amount ∧ effectLiability e = 0) ∧
    (e.record_type = "debt_in" →
      effectAsset e = e.amount ∧ effectLiability e = e.amount) ∧
    (e.record_type = "debt_out" →
      effectAsset e = -(e.amount + e.interest) ∧ effectLiability e = -e.amount) ∧
    (create_ledger s e).asset = s.asset + effectAsset e ∧
    (create_ledger s e).liability = s.liability + effectLiability e ∧
    (delete_ledger (create_ledger s e) s.nextId).asset = s.asset ∧
    (delete_ledger (create_ledger s e) s.nextId).liability = s.liability := by
  have hfind : findEntry s.nextId (create_ledger s e).entries = some e := by
    rw [create_ledger]
    exact findEntry_append_self e hfresh
  refine ⟨?_, ?_, ?_, ?_, rfl, rfl, ?_, ?_⟩
  · intro h
    constructor <;> simp [effectAsset, effectLiability, h]
  · intro h
    constructor <;> simp [effectAsset, effectLiability, h]
  · intro h
    constructor <;> simp [effectAsset, effectLiability, h]
  · intro h
    constructor <;> simp [effectAsset, effectLiability, interestVal_eq, h]
  · simp only [delete_ledger, hfind]
    show s.asset + effectAsset e - effectAsset e = s.asset
    ring
  · simp only [delete_ledger, hfind]
    show s.liability + effectLiability e - effectLiability e = s.liability
    ring

/-- Witness for C6: the spec's expense-50 round trip on the fresh store. -/
theorem ledger_create_delete_roundtrip_witness :
    (delete_ledger (create_ledger initLedgerState entryExpense50)
        initLedgerState.nextId).asset = initLedgerState.asset ∧
      (delete_ledger (create_ledger initLedgerState entryExpense50)
        initLedgerState.nextId).liability = initLedgerState.liability :=
  ⟨(ledger_create_delete_roundtrip initLedgerState entryExpense50
      (by decide)).2.2.2.2.2.2.1,
   (ledger_create_delete_roundtrip initLedgerState entryExpense50
      (by decide)).2.2.2.2.2.2.2⟩

/-- Counterexample to C2: from the fresh store, creating the debt_in 100
entry (stored with id 0) and updating it to debt_out 30/5 leaves the
aggregates at −35 and −30 — not at baseline+65 and baseline+70 as claimed,
because `update_ledger` first reverses the stored debt_in effect. -/
theorem ledger_edit_claim_counterexample :
    (update_ledger (create_ledger initLedgerState entryDebtIn100) 0
        entryDebtOut30i5).asset = -35 ∧
      (update_ledger (create_ledger initLedgerState entryDebtIn100) 0
        entryDebtOut30i5).liability = -30 ∧
      ¬((update_ledger (create_ledger initLedgerState entryDebtIn100) 0
            entryDebtOut30i5).asset = initLedgerState.asset + 65 ∧
        (update_ledger (create_ledger initLedgerState entryDebtIn100) 0
            entryDebtOut30i5).liability = initLedgerState.liability + 70) := by
  have h1 : effectAsset entryDebtIn100 = 100 := by
    simp [effectAsset, entryDebtIn100]
  have h2 : effectAsset entryDebtOut30i5 = -(30 + 5) := by
    simp [effectAsset, interestVal_eq, entryDebtOut30i5]
  have h3 : effectLiability entryDebtIn100 = 100 := by
    simp [effectLiability, entryDebtIn100]
  have h4 : effectLiability entryDebtOut30i5 = -30 := by
    simp [effectLiability, entryDebtOut30i5]
  have hA : (update_ledger (create_ledger initLedgerState entryDebtIn100) 0
      entryDebtOut30i5).asset = -35 := by
    show (0 : ℚ) + effectAsset entryDebtIn100 - effectAsset entryDebtIn100 +
        effectAsset entryDebtOut30i5 = -35
    rw [h1, h2]
    norm_num
  have hL : (update_ledger (create_ledger initLedgerState entryDebtIn100) 0
      entryDebtOut30i5).liability = -30 := by
    show (0 : ℚ) + effectLiability entryDebtIn100 - effectLiability entryDebtIn100 +
        effectLiability entryDebtOut30i5 = -30
    rw [h3, h4]
    norm_num
  refine ⟨hA, hL, ?_⟩
  intro hc
  have hbad : (-35 : ℚ) = initLedgerState.asset + 65 := hA.symm.trans hc.1
  rw [show initLedgerState.asset = (0 : ℚ) from rfl] at hbad
  norm_num at hbad

/-- Claim C2 (amended): from any baseline store whose next id is fresh,
creating a debt_in entry of amount 100 and then updating that entry to
debt_out amount 30 / interest 5 leaves `Asset.amount` at baseline−35 and
`Liability.amount` at baseline−30: the stored debt_in effect is reversed
before the debt_out effect is applied. -/
theorem ledger_edit_amended (s : LedgerState)
    (hfresh : s.nextId ∉ entryKeys s.entries) :
    (update_ledger (create_ledger s entryDebtIn100) s.nextId
        entryDebtOut30i5).asset = s.asset - 35 ∧
      (update_ledger (create_ledger s entryDebtIn100) s.nextId
        entryDebtOut30i5).liability = s.liability - 30 := by
  have hfind : findEntry s.nextId (create_ledger s entryDebtIn100).entries =
      some entryDebtIn100 := by
    rw [create_ledger]
    exact findEntry_append_self entryDebtIn100 hfresh
  have h1 : effectAsset entryDebtIn100 = 100 := by
    simp [effectAsset, entryDebtIn100]
  have h2 : effectAsset entryDebtOut30i5 = -(30 + 5) := by
    simp [effectAsset, interestVal_eq, entryDebtOut30i5]
  have h3 : effectLiability entryDebtIn100 = 100 := by
    simp [effectLiability, entryDebtIn100]
  have h4 : effectLiability entryDebtOut30i5 = -30 := by
    simp [effectLiability, entryDebtOut30i5]
  constructor
  · simp only [update_ledger, hfind]
    show s.asset + effectAsset entryDebtIn100 - effectAsset entryDebtIn100 +
        effectAsset entryDebtOut30i5 = s.asset - 35
    rw [h1, h2]
    ring
  · simp only [update_ledger, hfind]
    show s.liability + effectLiability entryDebtIn100 -
        effectLiability entryDebtIn100 + effectLiability entryDebtOut30i5 =
        s.liability - 30
    rw [h3, h4]
    ring

/-- Witness for the amended C2 on a nonzero baseline. -/
theorem ledger_edit_amended_witness :
    (update_ledger (create_ledger ⟨[], 7, 9, 0⟩ entryDebtIn100) 0
        entryDebtOut30i5).asset = 7 - 35 ∧
      (update_ledger (create_ledger ⟨[], 7, 9, 0⟩ entryDebtIn100) 0
        entryDebtOut30i5).liability = 9 - 30 :=
  ledger_edit_amended ⟨[], 7, 9, 0⟩ (by decide)

lemma calc_next_due_congr (r' r : Reminder) (h1 : r'.type = r.type)
    (h2 : r'.cycle_mode = r.cycle_mode) (h3 : r'.cycle_days = r.cycle_days)
    (d : PyDate) : calc_next_due r' d = calc_next_due r d := by
  unfold calc_next_due
  rw [h1, h2, h3]

/-- Claim C3: marking a recurring reminder processed sets `due_time` to
today+1 when `cycle_mode = "daily"` (ignoring the stored `due_time`), and
for every other cycle_mode advances the stored `due_time` by exactly one
cycle of `calc_next_due` (independent of today); in both cases
`remind_time` becomes the new `due_time` minus `advance_days` and
`processed` stays `false`. -/
theorem mark_processed_recurring_advance (today : PyDate) (r : Reminder)
    (hrec : r.recurring = true) :
    (r.cycle_mode = some "daily" →
        (mark_processed today r).due_time = some (addDays today 1)) ∧
    (∀ d : PyDate, r.cycle_mode ≠ some "daily" → r.due_time = some d →
        (mark_processed today r).due_time = some (calc_next_due r d)) ∧
    (∀ nd : PyDate, (mark_processed today r).due_time = some nd →
        (mark_processed today r).remind_time =
          some (addDaysInt nd (-(pyOrInt r.advance_days 0)))) ∧
    (mark_processed today r).processed = false := by
  by_cases hdm : r.cycle_mode = some "daily"
  · refine ⟨fun _ => ?_, fun d hne _ => absurd hdm hne, fun nd hnd => ?_, ?_⟩
    · simp [mark_processed, hrec, hdm]
    · simp only [mark_processed, hrec, hdm] at hnd ⊢
      simp at hnd ⊢
      exact hnd ▸ rfl
    · simp [mark_processed, hrec, hdm]
  · refine ⟨fun hc => absurd hc hdm, fun d _ hdt => ?_, fun nd hnd => ?_, ?_⟩
    · simp [mark_processed, hrec, hdm, hdt]
      exact calc_next_due_congr _ r rfl rfl rfl d
    · simp only [mark_processed, hrec, hdm] at hnd ⊢
      simp at hnd ⊢
      exact hnd ▸ rfl
    · simp [mark_processed, hrec, hdm]

/-- Witness for C3: processing the weekly reminder on 2024-03-15 advances it
to 2024-01-08, one cycle from the stored date, still in the past. -/
theorem mark_processed_recurring_advance_witness :
    (mark_processed ⟨2024, 3, 15⟩ rWeekly).due_time = some ⟨2024, 1, 8⟩ ∧
      (mark_processed ⟨2024, 3, 15⟩ rWeekly).processed = false :=
  ⟨((mark_processed_recurring_advance ⟨2024, 3, 15⟩ rWeekly rfl).2.1
      ⟨2024, 1, 1⟩ (by decide) rfl).trans (by decide),
   (mark_processed_recurring_advance ⟨2024, 3, 15⟩ rWeekly rfl).2.2.2⟩

/-- Counterexample to C4: with `cycle_days = -1` (non-positive, so the claim
predicts base+1 day), `calc_next_due` applies the negative delta as-is —
Python's `cycle_days or 1` only defaults `None` and `0` — and yields the day
before the base date. -/
theorem days_mode_nonpositive_counterexample :
    calc_next_due rDaysNeg ⟨2024, 1, 2⟩ = ⟨2024, 1, 1⟩ ∧
      calc_next_due rDaysNeg ⟨2024, 1, 2⟩ ≠ addDays ⟨2024, 1, 2⟩ 1 := by
  decide

/-- Claim C4 (amended): in mode `"days"`, `calc_next_due` returns
base + cycle_days, where only an unset (`None`) or zero `cycle_days` is
replaced by 1; a negative value is applied as-is and moves backwards. -/
theorem days_mode_amended (r : Reminder) (base : PyDate)
    (hm : r.cycle_mode = some "days") :
    (r.cycle_days = none → calc_next_due r base = addDays base 1) ∧
    (r.cycle_days = some 0 → calc_next_due r base = addDays base 1) ∧
    (∀ k : Int, r.cycle_days = some k → k ≠ 0 →
        calc_next_due r base = addDaysInt base k) := by
  have hred : calc_next_due r base = addDaysInt base (pyOrInt r.cycle_days 1) := by
    simp [calc_next_due, hm]
  refine ⟨fun h => ?_, fun h => ?_, fun k h hk => ?_⟩
  · rw [hred]
    simp [pyOrInt, h, addDaysInt]
  · rw [hred]
    simp [pyOrInt, h, addDaysInt]
  · rw [hred]
    simp [pyOrInt, h, hk]

/-- Witness for the amended C4 at `cycle_days = 5` and `cycle_days = None`. -/
theorem days_mode_amended_witness :
    calc_next_due rDays5 ⟨2024, 1, 2⟩ = addDaysInt ⟨2024, 1, 2⟩ 5 ∧
      calc_next_due rDaysNone ⟨2024, 1, 2⟩ = addDays ⟨2024, 1, 2⟩ 1 :=
  ⟨(days_mode_amended rDays5 ⟨2024, 1, 2⟩ rfl).2.2 5 rfl (by decide),
   (days_mode_amended rDaysNone ⟨2024, 1, 2⟩ rfl).1 rfl⟩

lemma validDate_mk (y m d : Nat) :
    validDate ⟨y, m, d⟩ = true ↔ 1 ≤ m ∧ m ≤ 12 ∧ 1 ≤ d ∧ d ≤ daysInMonth y m := by
  unfold validDate
  simp [and_assoc]

lemma yearly_clamp_shape {y m d : Nat} (hv : validDate ⟨y, m, d⟩ = true)
    (hinv : validDate ⟨y + 1, m, d⟩ = false) :
    m = 2 ∧ daysInMonth (y + 1) 2 = 28 := by
  rw [validDate_mk] at hv
  have hinv' : ¬(1 ≤ m ∧ m ≤ 12 ∧ 1 ≤ d ∧ d ≤ daysInMonth (y + 1) m) := by
    intro hc
    rw [(validDate_mk (y + 1) m d).mpr hc] at hinv
    exact Bool.noConfusion hinv
  have hdm : daysInMonth (y + 1) m < d := by
    by_contra hge
    exact hinv' ⟨hv.1, hv.2.1, hv.2.2.1, by omega⟩
  have hmonth : m = 2 := by
    by_contra hne
    have heq : daysInMonth (y + 1) m = daysInMonth y m := by
      unfold daysInMonth
      rw [if_neg hne, if_neg hne]
    have := hv.2.2.2
    omega
  subst hmonth
  refine ⟨rfl, ?_⟩
  have hle := hv.2.2.2
  unfold daysInMonth at hle hdm ⊢
  split_ifs at hle hdm ⊢ <;> omega

lemma dateLt_nextMonth (base : PyDate) (d : Nat) :
    dateLt base ⟨(nextMonth base).1, (nextMonth base).2, d⟩ := by
  unfold nextMonth dateLt
  split_ifs <;> simp

lemma dateLt_yearPlus (base : PyDate) (m d : Nat) :
    dateLt base ⟨base.year + 1, m, d⟩ :=
  Or.inl (Nat.lt_succ_self _)

lemma dateLt_addDaysInt_pos (d : PyDate) (k : Int) (hk : 0 < k) :
    dateLt d (addDaysInt d k) := by
  unfold addDaysInt
  rw [if_pos (le_of_lt hk)]
  obtain ⟨n, hn⟩ : ∃ n, k.toNat = n + 1 := ⟨k.toNat - 1, by omega⟩
  rw [hn]
  exact dateLt_addDays d n

lemma dateLt_calc_next_due (r : Reminder) (base : PyDate)
    (hdays : r.cycle_mode = some "days" → 0 < pyOrInt r.cycle_days 1) :
    dateLt base (calc_next_due r base) := by
  by_cases hc : r.type = "daily" ∧ (r.cycle_mode = none ∨ r.cycle_mode = some "")
  · have hred : calc_next_due r base = addDays base 1 := by
      simp [calc_next_due, hc]
    rw [hred]
    exact dateLt_addDays base 0
  · cases hcm : r.cycle_mode with
    | none =>
        have hred : calc_next_due r base = addDays base 1 := by
          simp [calc_next_due, hc, hcm]
        rw [hred]
        exact dateLt_addDays base 0
    | some m =>
        by_cases h1 : m = "daily"
        · have hred : calc_next_due r base = addDays base 1 := by
            simp [calc_next_due, hc, hcm, h1]
          rw [hred]
          exact dateLt_addDays base 0
        · by_cases h2 : m = "weekly"
          · have hred : calc_next_due r base = addDays base 7 := by
              simp [calc_next_due, hc, hcm, h2]
            rw [hred]
            exact dateLt_addDays base 6
          · by_cases h3 : m = "monthly" ∨ m = "month_start"
            · have hred : calc_next_due r base =
                  if validDate ⟨(nextMonth base).1, (nextMonth base).2, base.day⟩ then
                    (⟨(nextMonth base).1, (nextMonth base).2, base.day⟩ : PyDate)
                  else
                    ⟨(nextMonth base).1, (nextMonth base).2,
                      daysInMonth (nextMonth base).1 (nextMonth base).2⟩ := by
                rcases h3 with h3 | h3 <;> simp [calc_next_due, hc, hcm, h3]
              rw [hred]
              split_ifs <;> exact dateLt_nextMonth base _
            · rw [not_or] at h3
              by_cases h4 : m = "yearly"
              · have hred : calc_next_due r base =
                    if validDate ⟨base.year + 1, base.month, base.day⟩ then
                      (⟨base.year + 1, base.month, base.day⟩ : PyDate)
                    else ⟨base.year + 1, 2, 28⟩ := by
                  simp [calc_next_due, hc, hcm, h4]
                rw [hred]
                split_ifs <;> exact dateLt_yearPlus base _ _
              · by_cases h5 : m = "days"
                · have hred : calc_next_due r base =
                      addDaysInt base (pyOrInt r.cycle_days 1) := by
                    simp [calc_next_due, hc, hcm, h5]
                  rw [hred]
                  exact dateLt_addDaysInt_pos base _ (hdays (by rw [hcm, h5]))
                · by_cases hm0 : m = ""
                  · by_cases ht : r.type = "daily"
                    · have hred : calc_next_due r base = addDays base 1 := by
                        simp [calc_next_due, hcm, hm0, ht]
                      rw [hred]
                      exact dateLt_addDays base 0
                    · have hred : calc_next_due r base = addDays base 1 := by
                        simp [calc_next_due, hcm, hm0, ht]
                      rw [hred]
                      exact dateLt_addDays base 0
                  · have hred : calc_next_due r base = addDays base 1 := by
                      simp [calc_next_due, hc, hcm, h1, h2, h3.1, h3.2, h4, h5, hm0]
                    rw [hred]
                    exact dateLt_addDays base 0

/-- Counterexample to C5: for the valid pair (mode `"days"` with
`cycle_days = -3`, base 2024-01-10), `calc_next_due` returns 2024-01-07,
which is not after the base date. -/
theorem next_due_strictly_after_counterexample :
    validDate ⟨2024, 1, 10⟩ = true ∧
      calc_next_due rDaysNegC5 ⟨2024, 1, 10⟩ = ⟨2024, 1, 7⟩ ∧
      ¬dateLt ⟨2024, 1, 10⟩ (calc_next_due rDaysNegC5 ⟨2024, 1, 10⟩) := by
  decide

/-- Claim C5 (amended): for every valid base date, `calc_next_due` returns a
date strictly after it for every cycle mode, provided that in mode `"days"`
the resolved cycle length (`cycle_days or 1`) is positive — a negative
`cycle_days` moves backwards instead; and in the `"monthly"`/`"month_start"`
and `"yearly"` cases where the same day-of-month does not exist in the
target month, the result is the last valid day of the intended target
month. -/
theorem next_due_strictly_after_amended (r : Reminder) (base : PyDate)
    (hv : validDate base = true)
    (hdays : r.cycle_mode = some "days" → 0 < pyOrInt r.cycle_days 1) :
    dateLt base (calc_next_due r base) ∧
    ((r.cycle_mode = some "monthly" ∨ r.cycle_mode = some "month_start") →
      validDate ⟨(nextMonth base).1, (nextMonth base).2, base.day⟩ = false →
      calc_next_due r base =
        ⟨(nextMonth base).1, (nextMonth base).2,
          daysInMonth (nextMonth base).1 (nextMonth base).2⟩) ∧
    (r.cycle_mode = some "yearly" →
      validDate ⟨base.year + 1, base.month, base.day⟩ = false →
      calc_next_due r base =
        ⟨base.year + 1, base.month, daysInMonth (base.year + 1) base.month⟩) := by
  refine ⟨dateLt_calc_next_due r base hdays, ?_, ?_⟩
  · intro hm hbad
    rcases hm with hm | hm <;> simp [calc_next_due, hm, hbad]
  · intro hm hbad
    obtain ⟨y, mo, d⟩ := base
    have hs := yearly_clamp_shape hv hbad
    simp only [calc_next_due, hm, hbad]
    simp [hbad, hs.1, hs.2]

/-- Witness for the amended C5: monthly from 2024-01-31 moves strictly
forward and clamps to 2024-02-29. -/
theorem next_due_strictly_after_amended_witness :
    dateLt ⟨2024, 1, 31⟩ (calc_next_due rMonthlyC5 ⟨2024, 1, 31⟩) ∧
      calc_next_due rMonthlyC5 ⟨2024, 1, 31⟩ = ⟨2024, 2, 29⟩ :=
  ⟨(next_due_strictly_after_amended rMonthlyC5 ⟨2024, 1, 31⟩ (by decide)
      (fun h => absurd h (by decide))).1,
   ((next_due_strictly_after_amended rMonthlyC5 ⟨2024, 1, 31⟩ (by decide)
      (fun h => absurd h (by decide))).2.1 (Or.inl rfl) (by decide)).trans
    (by decide)⟩

lemma recomputeRemind_due (r : Reminder) :
    (recomputeRemind r).due_time = r.due_time := by
  unfold recomputeRemind
  split <;> rfl

lemma recomputeRemind_processed (r : Reminder) :
    (recomputeRemind r).processed = r.processed := by
  unfold recomputeRemind
  split <;> rfl

lemma recomputeRemind_service (r : Reminder) :
    (recomputeRemind r).service = r.service := by
  unfold recomputeRemind
  split <;> rfl

lemma recomputeRemind_content (r : Reminder) :
    (recomputeRemind r).content = r.content := by
  unfold recomputeRemind
  split <;> rfl

lemma remindInv_recomputeRemind (r : Reminder) : remindInv (recomputeRemind r) := by
  intro d hd
  unfold recomputeRemind at hd ⊢
  cases hr : r.due_time with
  | none => simp [hr] at hd
  | some d0 =>
      simp only [hr] at hd ⊢
      simp at hd
      simp [hd]

lemma update_reminder_ok_inv (pf pg : String → Option PyDate) (r : Reminder)
    (p : RPatch) (r' : Reminder)
    (h : update_reminder pf pg r p = Except.ok r') : remindInv r' := by
  unfold update_reminder at h
  split at h
  · split at h
    · split at h
      · injection h with h
        rw [← h]
        exact remindInv_recomputeRemind _
      · exact Except.noConfusion h
    · injection h with h
      rw [← h]
      exact remindInv_recomputeRemind _
  · injection h with h
    rw [← h]
    exact remindInv_recomputeRemind _

lemma update_reminder_ok_processed (pf pg : String → Option PyDate) (r : Reminder)
    (p : RPatch) (r' : Reminder)
    (h : update_reminder pf pg r p = Except.ok r') : r'.processed = r.processed := by
  unfold update_reminder at h
  split at h
  · split at h
    · split at h
      · injection h with h
        rw [← h, recomputeRemind_processed]
        rfl
      · exact Except.noConfusion h
    · injection h with h
      rw [← h, recomputeRemind_processed]
      rfl
  · injection h with h
    rw [← h, recomputeRemind_processed]
    rfl

/-- Claim C9: the sparse-patch update never touches `processed`; patch keys
outside the seven handled ones are ignored wholesale, so a patch carrying
only the key `processed` leaves `processed`, `service`, `content` and
`due_time` at their stored values (the handler still recomputes
`remind_time` from the stored `due_time`). -/
theorem update_reminder_ignores_processed :
    (∀ (pf pg : String → Option PyDate) (r : Reminder) (p : RPatch) (r' : Reminder),
      update_reminder pf pg r p = Except.ok r' → r'.processed = r.processed) ∧
    (∀ (pf pg : String → Option PyDate) (r : Reminder) (ks : List String) (p : RPatch),
      update_reminder pf pg r { p with otherKeys := ks } = update_reminder pf pg r p) ∧
    (∀ (pf pg : String → Option PyDate) (r : Reminder),
      update_reminder pf pg r { otherKeys := ["processed"] } =
          Except.ok (recomputeRemind r) ∧
        (recomputeRemind r).processed = r.processed ∧
        (recomputeRemind r).service = r.service ∧
        (recomputeRemind r).content = r.content ∧
        (recomputeRemind r).due_time = r.due_time) := by
  refine ⟨update_reminder_ok_processed, fun pf pg r ks p => rfl, fun pf pg r => ?_⟩
  exact ⟨rfl, recomputeRemind_processed r, recomputeRemind_service r,
    recomputeRemind_content r, recomputeRemind_due r⟩

/-- Witness for C9: patching only `service` (plus an ignored `processed`
key) leaves `processed` at its stored value. -/
theorem update_reminder_ignores_processed_witness :
    ({ rW9 with service := "x" } : Reminder).processed = rW9.processed :=
  update_reminder_ignores_processed.1 (fun _ => none) (fun _ => none) rW9
    { service := some "x", otherKeys := ["processed"] }
    { rW9 with service := "x" } rfl

/-- Claim C10: a patch whose `due_time` value is falsy (null, empty string,
or any other falsy scalar) never reaches the date parser: the update
succeeds and the stored `due_time` is unchanged. -/
theorem update_reminder_falsy_due_time_ignored (pf pg : String → Option PyDate)
    (r : Reminder) (p : RPatch) (v : PVal)
    (hv : p.due_time = some v) (hf : pyTruthy v = false) :
    update_reminder pf pg r p = Except.ok (recomputeRemind (applyPatchBase r p)) ∧
      (recomputeRemind (applyPatchBase r p)).due_time = r.due_time := by
  constructor
  · unfold update_reminder
    rw [hv]
    simp [hf]
  · rw [recomputeRemind_due]
    rfl

/-- Witness for C10: a `due_time: null` patch succeeds and preserves the
stored `due_time`. -/
theorem update_reminder_falsy_due_time_ignored_witness :
    update_reminder (fun _ => none) (fun _ => none) rW10
        { due_time := some PVal.pnull } =
      Except.ok (recomputeRemind (applyPatchBase rW10 { due_time := some PVal.pnull })) ∧
      (recomputeRemind (applyPatchBase rW10 { due_time := some PVal.pnull })).due_time =
        rW10.due_time :=
  update_reminder_falsy_due_time_ignored (fun _ => none) (fun _ => none) rW10
    { due_time := some PVal.pnull } PVal.pnull rfl rfl

/-- Counterexample to C7: the empty string is unparseable
(`parse_due_date` raises on it), yet an update patch carrying
`due_time: ""` is falsy, skips the parser and succeeds instead of failing
with the 400-class error the claim requires for every unparseable input. -/
theorem due_time_parse_asymmetry_counterexample :
    parse_due_date (fun _ => none) (fun _ => none) "" = none ∧
      update_reminder (fun _ => none) (fun _ => none) rC7
          { due_time := some (PVal.pstr "") } = Except.ok rC7 ∧
      update_reminder (fun _ => none) (fun _ => none) rC7
          { due_time := some (PVal.pstr "") } ≠
        Except.error "Invalid due_time format" :=
  ⟨rfl, rfl, fun h => Except.noConfusion h⟩

/-- Claim C7 (amended): for every unparseable *truthy* `due_time` string,
creation swallows the failure and substitutes today for both `due_time` and
`remind_time`, while an update patch fails with the 400-class error; a
falsy value (empty string or null) instead takes the absent-`due_time` path
on create and is ignored on update. -/
theorem due_time_parse_asymmetry_amended :
    (∀ (pf pg : String → Option PyDate) (today : PyDate) (data : ReminderDraft)
        (s : String), data.due_time = some (DueInput.asStr s) → s ≠ "" →
      parse_due_date pf pg s = none →
      (create_reminder pf pg today data).due_time = some today ∧
        (create_reminder pf pg today data).remind_time = some today) ∧
    (∀ (pf pg : String → Option PyDate) (r : Reminder) (p : RPatch) (v : PVal),
      p.due_time = some v → pyTruthy v = true →
      parse_due_date pf pg (pvalStr v) = none →
      update_reminder pf pg r p = Except.error "Invalid due_time format") := by
  constructor
  · intro pf pg today data s hdt hs hparse
    constructor <;> simp [create_reminder, hdt, dueTruthy, hs, hparse]
  · intro pf pg r p v hv htr hparse
    unfold update_reminder
    rw [hv]
    simp [htr, hparse]

/-- Witness for the amended C7: with parsers that reject "garbage", creation
on 2024-01-15 silently stores today twice while the update patch errors. -/
theorem due_time_parse_asymmetry_amended_witness :
    ((create_reminder (fun _ => none) (fun _ => none) ⟨2024, 1, 15⟩
          draftC7).due_time = some ⟨2024, 1, 15⟩ ∧
        (create_reminder (fun _ => none) (fun _ => none) ⟨2024, 1, 15⟩
          draftC7).remind_time = some ⟨2024, 1, 15⟩) ∧
      update_reminder (fun _ => none) (fun _ => none) rC7
          { due_time := some (PVal.pstr "garbage") } =
        Except.error "Invalid due_time format" :=
  ⟨due_time_parse_asymmetry_amended.1 (fun _ => none) (fun _ => none)
      ⟨2024, 1, 15⟩ draftC7 "garbage" rfl (by decide) rfl,
   due_time_parse_asymmetry_amended.2 (fun _ => none) (fun _ => none) rC7
      { due_time := some (PVal.pstr "garbage") } (PVal.pstr "garbage") rfl rfl rfl⟩

lemma create_reminder_inv (pf pg : String → Option PyDate) (today : PyDate)
    (data : ReminderDraft)
    (hsafe : ∀ s : String, data.due_time = some (DueInput.asStr s) → s ≠ "" →
      parse_due_date pf pg s ≠ none) :
    remindInv (create_reminder pf pg today data) := by
  intro d hd
  cases hdt : data.due_time with
  | none =>
      unfold create_reminder at hd ⊢
      simp [hdt, dueTruthy] at hd ⊢
      simp [hd]
  | some di =>
      cases di with
      | asDate d0 =>
          unfold create_reminder at hd ⊢
          simp [hdt, dueTruthy] at hd ⊢
          simp [hd]
      | asStr s =>
          by_cases hs : s = ""
          · unfold create_reminder at hd ⊢
            subst hs
            simp [hdt, dueTruthy] at hd ⊢
            simp [hd]
          · cases hp : parse_due_date pf pg s with
            | none => exact absurd hp (hsafe s hdt hs)
            | some d0 =>
                unfold create_reminder at hd ⊢
                simp [hdt, dueTruthy, hs, hp] at hd ⊢
                simp [hd]

lemma mark_processed_recurring_inv (today : PyDate) (r : Reminder)
    (hrec : r.recurring = true) : remindInv (mark_processed today r) := by
  intro d hd
  simp [mark_processed, hrec] at hd ⊢
  rw [hd]

lemma mark_processed_once_inv (today : PyDate) (r : Reminder)
    (hrec : r.recurring = false) (hinv : remindInv r) :
    remindInv (mark_processed today r) := by
  intro d hd
  simp [mark_processed, hrec] at hd ⊢
  exact hinv d hd

lemma migrate_reminder_inv (today : PyDate) (r : Reminder)
    (hinv : remindInv r) (hdue : r.due_time ≠ none) :
    remindInv (migrate_reminder today r) := by
  obtain ⟨d0, hd0⟩ := Option.ne_none_iff_exists'.mp hdue
  have hrm := hinv d0 hd0
  intro d hd
  unfold migrate_reminder at hd ⊢
  by_cases ht : r.type = "daily"
  · simp [ht, hd0, hrm] at hd ⊢
    rw [← hd]
  · simp [ht, hd0] at hd ⊢
    rw [← hd]
    exact hrm

/-- Counterexample to C8: the creation silent-fallback path stores today for
both `due_time` and `remind_time` while `advance_days = 30`, so
`remind_time = due_time - advance_days` fails right after a Create. -/
theorem remind_time_invariant_counterexample :
    (create_reminder (fun _ => none) (fun _ => none) ⟨2024, 1, 15⟩
        draftC8).due_time = some ⟨2024, 1, 15⟩ ∧
      (create_reminder (fun _ => none) (fun _ => none) ⟨2024, 1, 15⟩
        draftC8).remind_time = some ⟨2024, 1, 15⟩ ∧
      (create_reminder (fun _ => none) (fun _ => none) ⟨2024, 1, 15⟩
        draftC8).advance_days = some 30 ∧
      ¬remindInv (create_reminder (fun _ => none) (fun _ => none) ⟨2024, 1, 15⟩
        draftC8) := by
  refine ⟨rfl, rfl, rfl, ?_⟩
  intro h
  have hx := h ⟨2024, 1, 15⟩ rfl
  rw [show (create_reminder (fun _ => none) (fun _ => none) ⟨2024, 1, 15⟩
      draftC8).remind_time = some ⟨2024, 1, 15⟩ from rfl] at hx
  have hy := Option.some.inj hx
  exact absurd hy.symm (by decide)

/-- Claim C8 (amended): `remind_time = due_time − (advance_days or 0)` holds
after every successful Update, after Create except its silent-fallback path
(a truthy unparseable `due_time` string, where both fields are set to today
regardless of `advance_days`), and unconditionally after MarkProcessed of a
recurring reminder; a non-recurring MarkProcessed preserves the invariant,
and the List migration pass preserves it for records whose `due_time` is
already set (its backfill of a missing `due_time` need not respect it). -/
theorem remind_time_invariant_amended :
    (∀ (pf pg : String → Option PyDate) (r : Reminder) (p : RPatch) (r' : Reminder),
      update_reminder pf pg r p = Except.ok r' → remindInv r') ∧
    (∀ (pf pg : String → Option PyDate) (today : PyDate) (data : ReminderDraft),
      (∀ s : String, data.due_time = some (DueInput.asStr s) → s ≠ "" →
        parse_due_date pf pg s ≠ none) →
      remindInv (create_reminder pf pg today data)) ∧
    (∀ (today : PyDate) (r : Reminder), r.recurring = true →
      remindInv (mark_processed today r)) ∧
    (∀ (today : PyDate) (r : Reminder), r.recurring = false → remindInv r →
      remindInv (mark_processed today r)) ∧
    (∀ (today : PyDate) (r : Reminder), remindInv r → r.due_time ≠ none →
      remindInv (migrate_reminder today r)) :=
  ⟨update_reminder_ok_inv, create_reminder_inv, mark_processed_recurring_inv,
   mark_processed_once_inv, migrate_reminder_inv⟩

/-- Witness for the amended C8: after MarkProcessed of the recurring weekly
reminder, `remind_time` equals the new `due_time` (2024-01-08) minus the
0-day advance window. -/
theorem remind_time_invariant_amended_witness :
    (mark_processed ⟨2024, 3, 15⟩ rWeeklyC8).remind_time =
      some (addDaysInt ⟨2024, 1, 8⟩
        (-(pyOrInt (mark_processed ⟨2024, 3, 15⟩ rWeeklyC8).advance_days 0))) :=
  remind_time_invariant_amended.2.2.1 ⟨2024, 3, 15⟩ rWeeklyC8 rfl
    ⟨2024, 1, 8⟩ (by decide)
